import Mathlib

/-!
Verification of the snake game repository (src/snake.rs, src/game.rs,
src/term.rs, src/main.rs) against its natural-language specification.

Shallow embedding conventions:
* `TermInt` (Rust `u16`) is modelled as `Nat`; arithmetic that can wrap in
  release-mode Rust is made explicit through `u16add` / `u16sub` / `u16ofInt`,
  which reduce modulo 2^16.
* `Coords` is `(x, y) : Nat × Nat`, mirroring `pub type Coords = (u16, u16)`.
* Stateful Rust methods become pure functions returning the updated state.
* Code that can panic (`unwrap` on an empty body or empty message-line list)
  returns `Option`.
-/

namespace SnakeVerif

/-- Rust `TermInt` is `u16`; values are naturals reduced modulo 2^16. -/
abbrev TermInt := Nat

/-- Rust `Coords = (u16, u16)`: `(x, y)` screen coordinates. -/
abbrev Coords := Nat × Nat

/-- Wrapping `u16` addition (release-mode Rust semantics). -/
def u16add (a b : Nat) : Nat := (a + b) % 65536

/-- Wrapping `u16` subtraction of `b` from `a`, for `a b < 65536`. -/
def u16sub (a b : Nat) : Nat := (a + 65536 - b) % 65536

/-- Interpretation of an `i16`/`i32` intermediate value as a `u16`:
the Rust casts `u16 -> i16` and `i16 -> u16` both preserve the residue
modulo 2^16, so a chain of wrapping signed operations followed by a cast
back to `u16` is exactly reduction of the exact integer value mod 2^16. -/
def u16ofInt (z : Int) : Nat := (z % 65536).toNat

/-- `enum Direction` from src/snake.rs. -/
inductive Direction where
  | Up
  | Down
  | Left
  | Right
deriving DecidableEq, Repr

/-- `enum MoveResult` from src/snake.rs. -/
inductive MoveResult where
  | Moved (new_head : Coords) (old_head : Coords) (old_tail : Option Coords)
  | Crashed
deriving DecidableEq, Repr

/-- `struct Snake` from src/snake.rs: the body is ordered tail first,
head last, exactly like the Rust `Vec`. -/
structure Snake where
  body : List Coords
  direction : Direction
  grow_next_move : Bool
deriving DecidableEq, Repr

/-- The `diff` table in `Snake::new`. -/
def dirDiff : Direction → Int × Int
  | .Up => (0, -1)
  | .Down => (0, 1)
  | .Left => (-1, 0)
  | .Right => (1, 0)

/-- `Snake::new(pos, size, direction)`: body is built from `i = size-1`
down to `0` as `pos - diff * i`, computed in (wrapping) `i16` and cast back
to `u16`, which is reduction of the exact value modulo 2^16 (`u16ofInt`).
Rust's `size` is an `i16`; nonnegative sizes are modelled by `Nat`
(a negative `size` yields an empty range in Rust, i.e. `size = 0` here). -/
def Snake.new (pos : Coords) (size : Nat) (direction : Direction) : Snake :=
  let diff := dirDiff direction
  let body := ((List.range size).reverse).map (fun (i : Nat) =>
    (u16ofInt ((pos.1 : Int) - diff.1 * (i : Int)),
     u16ofInt ((pos.2 : Int) - diff.2 * (i : Int))))
  ⟨body, direction, false⟩

/-- The head-offset computation at the top of `Snake::move_step`
(`u16` arithmetic, wrapping in release mode). -/
def stepCoord (d : Direction) (c : Coords) : Coords :=
  match d with
  | .Up => (c.1, u16sub c.2 1)
  | .Down => (c.1, u16add c.2 1)
  | .Left => (u16sub c.1 1, c.2)
  | .Right => (u16add c.1 1, c.2)

/-- `Snake::move_step(max_x, max_y)`. Returns `none` when the body is empty
(where `self.body.last().unwrap()` would panic); otherwise returns the
`MoveResult` together with the updated snake. The collision check is against
`body[1..]` (all body cells except the first element, i.e. except the current
tail), exactly as in the source. -/
def Snake.moveStep (s : Snake) (maxX maxY : Nat) : Option (MoveResult × Snake) :=
  match s.body with
  | [] => none
  | t :: rest =>
    let old_head := (t :: rest).getLast (List.cons_ne_nil t rest)
    let new_head := stepCoord s.direction old_head
    if new_head.1 = 0 ∨ new_head.2 = 0 ∨ maxX < new_head.1 ∨ maxY < new_head.2 ∨
        new_head ∈ rest then
      some (.Crashed, s)
    else if s.grow_next_move then
      some (.Moved new_head old_head none,
            { s with body := t :: (rest ++ [new_head]), grow_next_move := false })
    else
      some (.Moved new_head old_head (some t),
            { s with body := rest ++ [new_head] })

/-- The reversal test in `Snake::set_direction`: `d.isReverse cur` is true
exactly for the pairs `(Up, Down)`, `(Down, Up)`, `(Right, Left)`,
`(Left, Right)` of (new, current). -/
def Direction.isReverse : Direction → Direction → Bool
  | .Up, .Down => true
  | .Down, .Up => true
  | .Right, .Left => true
  | .Left, .Right => true
  | _, _ => false

/-- `Snake::set_direction`. -/
def Snake.setDirection (s : Snake) (d : Direction) : Snake :=
  if d.isReverse s.direction then s else { s with direction := d }

/-- `Snake::grow`. -/
def Snake.grow (s : Snake) : Snake :=
  { s with grow_next_move := true }

/-- `const TICKS_UNTIL_UPDATE: u64 = 10` from src/game.rs. -/
def TICKS_UNTIL_UPDATE : Nat := 10

/-- `const INITIAL_SNAKE_LENGTH: i16 = 6` from src/game.rs. -/
def INITIAL_SNAKE_LENGTH : Nat := 6

/-- Rust `u64::checked_sub`. -/
def checkedSub (a b : Nat) : Option Nat :=
  if b ≤ a then some (a - b) else none

/-- The step-counter recomputation in `SnakeGame::play` (src/game.rs lines
100-105): `TICKS_UNTIL_UPDATE.checked_sub(score / 7)` then `max(x, 1)`,
falling back to `1` on underflow. -/
def recomputeCounter (score : Nat) : Nat :=
  match checkedSub TICKS_UNTIL_UPDATE (score / 7) with
  | some x => max x 1
  | none => 1

/-- The test `matches!(snake.get_direction(), Up | Down)`. -/
def Direction.isVertical : Direction → Bool
  | .Up => true
  | .Down => true
  | _ => false

/-- The vertical-speed compensation `(ticks as f64 * 1.35).ceil() as u64`,
modelled exactly as the ceiling of the rational `27 * n / 20`. For every
counter value this code ever receives (`1 ≤ n ≤ 10`) the `f64` product
`n * 1.35` is not an integer and is within 2e-15 of the exact value, so its
ceiling agrees with the exact rational ceiling computed here. -/
def vertCompensate (n : Nat) : Nat := (27 * n + 19) / 20

/-- The game-step scheduling fragment of `SnakeGame::play` (src/game.rs
lines 100-116), in source order: recompute the counter from the score,
then apply (and clear) the pending direction change, then apply the
vertical compensation based on `snake.get_direction()` as it is at that
point. Returns (new counter, updated snake, remaining pending change). -/
def stepCounterUpdate (snake : Snake) (dirChange : Option Direction) (score : Nat) :
    Nat × Snake × Option Direction :=
  let ticks := recomputeCounter score
  let sd : Snake × Option Direction :=
    match dirChange with
    | some d => (snake.setDirection d, none)
    | none => (snake, none)
  let ticks' := if sd.1.direction.isVertical then vertCompensate ticks else ticks
  (ticks', sd.1, sd.2)

/-- `SnakeGame::initialize` (src/game.rs lines 38-42): the interior
positions, pushed for `y in 1..height-1`, `x in 1..width-1`, y-major. -/
def gamePositions (width height : Nat) : List Coords :=
  (List.range' 1 (height - 1 - 1)).flatMap (fun y =>
    (List.range' 1 (width - 1 - 1)).map (fun x => (x, y)))

/-- Model of the external random-choice capability
(`rand::seq::SliceRandom::choose`): `none` exactly on an empty slice,
otherwise some element of the slice; the random draw is abstracted by the
oracle index `i`. -/
def chooseOracle (i : Nat) (l : List Coords) : Option Coords :=
  if h : l.length = 0 then none
  else some (l.get ⟨i % l.length, Nat.mod_lt _ (Nat.pos_of_ne_zero h)⟩)

/-- `SnakeGame::spawn_apple` (src/game.rs lines 172-181): filter the
precomputed interior positions by non-membership in the snake body and pick
one at random. The subsequent `print_at`/`flush` of the apple touch only
the terminal device and are irrelevant to the returned cell. -/
def spawnApple (width height : Nat) (body : List Coords) (i : Nat) : Option Coords :=
  let choices := (gamePositions width height).filter (fun p => ¬ p ∈ body)
  chooseOracle i choices

/-- The interior-cell predicate of the arena
(`x ∈ [1, width-2]`, `y ∈ [1, height-2]`), from the spec's GameArena model. -/
def interiorCell (width height : Nat) (c : Coords) : Prop :=
  1 ≤ c.1 ∧ c.1 ≤ width - 2 ∧ 1 ≤ c.2 ∧ c.2 ≤ height - 2

/-! ### Helper lemmas about the `Snake` operations -/

theorem setDirection_body (s : Snake) (d : Direction) :
    (s.setDirection d).body = s.body := by
  unfold Snake.setDirection; split <;> rfl

theorem setDirection_grow_flag (s : Snake) (d : Direction) :
    (s.setDirection d).grow_next_move = s.grow_next_move := by
  unfold Snake.setDirection; split <;> rfl

theorem grow_body (s : Snake) : s.grow.body = s.body := rfl

/-- Inversion of a successful `move_step`: the body was nonempty, the new
head was not in `body[1..]`, and the body evolves by push-only (growth
pending) or push-and-drain (no growth pending). -/
theorem moveStep_moved_inv (s : Snake) (maxX maxY : Nat) (nh oh : Coords)
    (ot : Option Coords) (s' : Snake)
    (hm : s.moveStep maxX maxY = some (.Moved nh oh ot, s')) :
    ∃ t rest, s.body = t :: rest ∧
      oh = (t :: rest).getLast (List.cons_ne_nil t rest) ∧
      nh = stepCoord s.direction oh ∧ nh ∉ rest ∧ s'.direction = s.direction ∧
      ((s.grow_next_move = true ∧ s'.body = t :: (rest ++ [nh]) ∧ ot = none ∧
          s'.grow_next_move = false) ∨
       (s.grow_next_move = false ∧ s'.body = rest ++ [nh] ∧ ot = some t ∧
          s'.grow_next_move = false)) := by
  obtain ⟨body, dir, g⟩ := s
  cases body with
  | nil => simp [Snake.moveStep] at hm
  | cons t rest =>
    refine ⟨t, rest, rfl, ?_⟩
    simp only [Snake.moveStep] at hm
    split at hm
    · simp at hm
    · rename_i hcond
      push_neg at hcond
      split at hm <;> rename_i hg <;>
        simp only [Option.some.injEq, Prod.mk.injEq, MoveResult.Moved.injEq] at hm <;>
        obtain ⟨⟨hnh, hoh, hot⟩, hs'⟩ := hm <;>
        subst hnh <;> subst hoh <;> subst hot <;> subst hs'
      · exact ⟨rfl, rfl, hcond.2.2.2.2, rfl, Or.inl ⟨hg, rfl, rfl, rfl⟩⟩
      · exact ⟨rfl, rfl, hcond.2.2.2.2, rfl,
          Or.inr ⟨by simpa using hg, rfl, rfl, by simpa using hg⟩⟩

/-! ### C1: `move` crashes exactly on walls or body cells other than the tail -/

/-- C1. For every live snake (`getLast? = some hd` names the current head)
and bounds, `move_step` returns `Crashed` if and only if the new head —
the current head offset one cell along the current direction — has `x = 0`,
`y = 0`, `x > maxX`, `y > maxY`, or coincides with some body cell other
than the current tail (the first body element, excluded by `drop 1`).
In particular growth pending plays no role in the collision test. -/
theorem move_crash_iff (s : Snake) (maxX maxY : Nat) (hd : Coords)
    (hb : s.body.getLast? = some hd) :
    (∃ s', s.moveStep maxX maxY = some (.Crashed, s')) ↔
      ((stepCoord s.direction hd).1 = 0 ∨ (stepCoord s.direction hd).2 = 0 ∨
       maxX < (stepCoord s.direction hd).1 ∨ maxY < (stepCoord s.direction hd).2 ∨
       stepCoord s.direction hd ∈ s.body.drop 1) := by
  obtain ⟨body, dir, g⟩ := s
  cases body with
  | nil => simp at hb
  | cons t rest =>
    rw [List.getLast?_eq_getLast _ (List.cons_ne_nil t rest)] at hb
    have hd_eq : hd = (t :: rest).getLast (List.cons_ne_nil t rest) :=
      (Option.some.inj hb).symm
    subst hd_eq
    show (∃ s', Snake.moveStep ⟨t :: rest, dir, g⟩ maxX maxY = _) ↔ _
    simp only [Snake.moveStep, List.drop_succ_cons, List.drop_zero]
    split
    · rename_i hcond
      exact ⟨fun _ => hcond, fun _ => ⟨_, rfl⟩⟩
    · rename_i hcond
      constructor
      · intro ⟨s', hs'⟩
        split at hs' <;> simp at hs'
      · intro h; exact absurd h hcond

/-- Witness for C1 at a concrete input: a length-2 snake facing `Right`
whose next head cell `(5, 4)` exceeds `maxX = 4`, hence crashes. -/
theorem move_crash_iff_witness :
    (∃ s', (Snake.mk [(3,4), (4,4)] .Right false).moveStep 4 10 =
        some (.Crashed, s')) ↔
      ((stepCoord .Right (4,4)).1 = 0 ∨ (stepCoord .Right (4,4)).2 = 0 ∨
       4 < (stepCoord .Right (4,4)).1 ∨ 10 < (stepCoord .Right (4,4)).2 ∨
       stepCoord .Right (4,4) ∈ [((3:Nat),(4:Nat)), (4,4)].drop 1) :=
  move_crash_iff (Snake.mk [(3,4), (4,4)] .Right false) 4 10 (4,4) (by decide)

/-! ### C10: a crashing `move` leaves the snake unchanged -/

/-- C10. Whenever `move_step` returns `Crashed`, the returned snake state is
exactly the input snake: body, direction and pending-growth flag are all
unchanged (the crash exit happens before any mutation). -/
theorem move_crash_atomic (s : Snake) (maxX maxY : Nat) (s' : Snake)
    (h : s.moveStep maxX maxY = some (.Crashed, s')) : s' = s := by
  obtain ⟨body, dir, g⟩ := s
  cases body with
  | nil => simp [Snake.moveStep] at h
  | cons t rest =>
    simp only [Snake.moveStep] at h
    split at h
    · simp only [Option.some.injEq, Prod.mk.injEq] at h
      exact h.2.symm
    · split at h <;> simp at h

/-- Witness for C10: a concrete snake that crashes into the `x = 0` wall
and is returned unchanged. -/
theorem move_crash_atomic_witness :
    (Snake.mk [(1,1)] .Left false).moveStep 10 10 =
        some (.Crashed, Snake.mk [(1,1)] .Left false) ∧
      (Snake.mk [(1,1)] .Left false) = Snake.mk [(1,1)] .Left false :=
  ⟨by decide, move_crash_atomic _ 10 10 _ (by decide)⟩

/-! ### C8: which `setDirection` calls change the stored direction -/

/-- Counterexample to C8 as stated: setting the direction to the *current*
direction (`Up` on an `Up`-facing snake) leaves the stored direction
unchanged even though `Up` is not the direct reverse of `Up`, so
"no-op exactly when reverse" fails. -/
theorem setDirection_noop_not_iff_reverse :
    ¬ ((((Snake.mk [(4,4)] .Up false).setDirection .Up).direction =
          (Snake.mk [(4,4)] .Up false).direction) ↔
        Direction.isReverse .Up (Snake.mk [(4,4)] .Up false).direction = true) := by
  decide

/-- C8 (amended). `setDirection` keeps the stored direction exactly when the
new direction is the direct reverse of the current one; in every other case
the stored direction becomes the new direction (which coincides with the old
one when they were already equal). Hence the direction is unchanged iff the
new direction is the reverse of, or equal to, the current one. Body and
growth flag are never touched. -/
theorem setDirection_noop_iff (s : Snake) (d : Direction) :
    (s.setDirection d).direction =
        (if d.isReverse s.direction then s.direction else d) ∧
      ((s.setDirection d).direction = s.direction ↔
        (d.isReverse s.direction = true ∨ d = s.direction)) ∧
      (s.setDirection d).body = s.body ∧
      (s.setDirection d).grow_next_move = s.grow_next_move := by
  rcases s with ⟨b, cur, g⟩
  cases d <;> cases cur <;> simp [Snake.setDirection, Direction.isReverse]

/-! ### C4: ordering of pending-direction application and vertical compensation -/

/-- Counterexample to C4 as stated: with current direction `Right`
(horizontal) and pending change `Up`, the recomputed counter is `10`, yet
the game step produces `14 = ceil(10 * 1.35)` — the compensation consulted
the direction *after* the pending change was applied, not before. -/
theorem vertical_compensation_after_pending :
    (stepCounterUpdate (Snake.mk [(4,4)] .Right false) (some .Up) 0).1 = 14 ∧
      Direction.isVertical (Snake.mk [(4,4)] .Right false).direction = false ∧
      recomputeCounter 0 = 10 ∧
      (stepCounterUpdate (Snake.mk [(4,4)] .Right false) (some .Up) 0).1 ≠
        recomputeCounter 0 := by
  decide

/-- C4 (amended). Within a game step the pending direction change is applied
to the snake first and cleared, and the vertical compensation is then
computed from the snake's direction *after* that application. -/
theorem vertical_compensation_order (s : Snake) (dc : Option Direction)
    (score : Nat) :
    (stepCounterUpdate s dc score).2.2 = none ∧
      (stepCounterUpdate s dc score).2.1 =
        (match dc with | some d => s.setDirection d | none => s) ∧
      (stepCounterUpdate s dc score).1 =
        (if (stepCounterUpdate s dc score).2.1.direction.isVertical
         then vertCompensate (recomputeCounter score)
         else recomputeCounter score) := by
  cases dc <;> simp [stepCounterUpdate]

/-! ### C5: the step-speed formula -/

/-- C5. The recomputed step counter equals
`max(baseline - floor(score/7), 1)` over the integers with baseline 10;
concretely score 0 gives 10, score 7 gives 9, and any score of at least 70
gives 1. -/
theorem step_speed_formula (score : Nat) :
    (recomputeCounter score : Int) =
        max ((TICKS_UNTIL_UPDATE : Int) - (score : Int) / 7) 1 ∧
      recomputeCounter 0 = 10 ∧ recomputeCounter 7 = 9 ∧
      (70 ≤ score → recomputeCounter score = 1) := by
  refine ⟨?_, by decide, by decide, ?_⟩
  · unfold recomputeCounter checkedSub TICKS_UNTIL_UPDATE
    split <;> rename_i h <;> split at h <;> simp_all <;> omega
  · intro h
    unfold recomputeCounter checkedSub TICKS_UNTIL_UPDATE
    have h10 : 10 ≤ score / 7 := by omega
    split <;> rename_i hx <;> split at hx <;> simp_all <;> omega

/-- Witness for C5: the floor at score 70. -/
theorem step_speed_formula_witness : recomputeCounter 70 = 1 :=
  (step_speed_formula 70).2.2.2 (by decide)

/-! ### C6: body-length evolution under `move` and `grow` -/

/-- C6. A successful move with no pending growth keeps the body length
constant, returns the removed tail cell (the first body element) and leaves
the flag clear; a successful move with pending growth lengthens the body by
exactly one, returns no vacated tail and clears the flag. `grow` is
idempotent, so any number of `grow` calls between two moves adds exactly
one cell on the next successful move. -/
theorem move_length_growth (s : Snake) (maxX maxY : Nat) (t : Coords)
    (rest : List Coords) (nh oh : Coords) (ot : Option Coords) (s' : Snake)
    (hb : s.body = t :: rest)
    (hm : s.moveStep maxX maxY = some (.Moved nh oh ot, s')) :
    (s.grow_next_move = false → s'.body.length = s.body.length ∧ ot = some t ∧
        s'.grow_next_move = false) ∧
      (s.grow_next_move = true → s'.body.length = s.body.length + 1 ∧ ot = none ∧
        s'.grow_next_move = false) ∧
      (∀ u : Snake, u.grow.grow = u.grow ∧ u.grow.grow_next_move = true) := by
  obtain ⟨t', rest', hb', hoh, hnh, hmem, hdir, hcase⟩ :=
    moveStep_moved_inv s maxX maxY nh oh ot s' hm
  rw [hb] at hb'
  obtain ⟨rfl, rfl⟩ : t = t' ∧ rest = rest' := by
    injection hb' with h1 h2; exact ⟨h1, h2⟩
  rcases hcase with ⟨hg, hbody', hot, hflag⟩ | ⟨hg, hbody', hot, hflag⟩
  · refine ⟨fun hf => absurd hg (by rw [hf]; simp), fun _ => ⟨?_, hot, hflag⟩,
      fun u => ⟨rfl, rfl⟩⟩
    rw [hbody', hb]; simp
  · refine ⟨fun _ => ⟨?_, hot, hflag⟩, fun hf => absurd hg (by rw [hf]; simp),
      fun u => ⟨rfl, rfl⟩⟩
    rw [hbody', hb]; simp

/-- Witness for C6: a concrete non-growing move of a length-2 snake: length
stays 2 and the vacated tail `(3,4)` is returned. -/
theorem move_length_growth_witness :
    ((Snake.mk [(3,4), (4,4)] .Right false).grow_next_move = false →
        (Snake.mk [(4,4), (5,4)] .Right false).body.length =
          (Snake.mk [(3,4), (4,4)] .Right false).body.length ∧
        (some ((3:Nat), (4:Nat)) : Option Coords) = some (3,4) ∧
        (Snake.mk [(4,4), (5,4)] .Right false).grow_next_move = false) ∧
      ((Snake.mk [(3,4), (4,4)] .Right false).grow_next_move = true →
        (Snake.mk [(4,4), (5,4)] .Right false).body.length =
          (Snake.mk [(3,4), (4,4)] .Right false).body.length + 1 ∧
        (some ((3:Nat), (4:Nat)) : Option Coords) = none ∧
        (Snake.mk [(4,4), (5,4)] .Right false).grow_next_move = false) ∧
      (∀ u : Snake, u.grow.grow = u.grow ∧ u.grow.grow_next_move = true) :=
  move_length_growth (Snake.mk [(3,4), (4,4)] .Right false) 10 10 (3,4) [(4,4)]
    (5,4) (4,4) (some (3,4)) (Snake.mk [(4,4), (5,4)] .Right false)
    (by decide) (by decide)

/-! ### C2: the no-duplicate-coordinates invariant -/

/-- Reachable snake states exactly as claim C2 describes them: built by
`Snake::new` with a positive length (Rust's `size` is an `i16`, hence at
most 32767), followed by any sequence of `set_direction`, `grow` and
`move_step` calls in which every move returned `Moved`. -/
inductive Reachable : Snake → Prop where
  | base (pos : Coords) (L : Nat) (d : Direction) (h1 : 1 ≤ L) (h2 : L ≤ 32767) :
      Reachable (Snake.new pos L d)
  | setDir (s : Snake) (d : Direction) (h : Reachable s) :
      Reachable (s.setDirection d)
  | growStep (s : Snake) (h : Reachable s) : Reachable s.grow
  | mv (s s' : Snake) (maxX maxY : Nat) (nh oh : Coords) (ot : Option Coords)
      (h : Reachable s) (hm : s.moveStep maxX maxY = some (.Moved nh oh ot, s')) :
      Reachable s'

/-- Reachable snake states with the additional restriction that no
successful move lands the new head on the current tail cell while growth is
pending (the quirky case the spec documents in section 4.1). -/
inductive ReachableSafe : Snake → Prop where
  | base (pos : Coords) (L : Nat) (d : Direction) (h1 : 1 ≤ L) (h2 : L ≤ 32767) :
      ReachableSafe (Snake.new pos L d)
  | setDir (s : Snake) (d : Direction) (h : ReachableSafe s) :
      ReachableSafe (s.setDirection d)
  | growStep (s : Snake) (h : ReachableSafe s) : ReachableSafe s.grow
  | mv (s s' : Snake) (maxX maxY : Nat) (nh oh : Coords) (ot : Option Coords)
      (h : ReachableSafe s)
      (hm : s.moveStep maxX maxY = some (.Moved nh oh ot, s'))
      (hsafe : s.grow_next_move = true → s.body.head? ≠ some nh) :
      ReachableSafe s'

/-- The initial body built by `Snake::new` has no duplicate coordinates as
long as the length does not exceed 2^16 (the `i16` length bound 32767 is
well below this): the cells are distinct residues modulo 2^16 along one
axis. -/
theorem new_body_nodup (pos : Coords) (L : Nat) (d : Direction)
    (hL : L ≤ 65536) : (Snake.new pos L d).body.Nodup := by
  unfold Snake.new
  refine List.Nodup.map_on ?_ (List.nodup_reverse.mpr (List.nodup_range L))
  intro x hx y hy hxy
  rw [List.mem_reverse, List.mem_range] at hx hy
  cases d <;>
    simp only [dirDiff, u16ofInt, Prod.mk.injEq, neg_mul, one_mul, zero_mul,
      sub_zero, sub_neg_eq_add] at hxy <;>
    omega

/-- Counterexample to C2 as stated: the state reached from
`new((4,4), 4, Right)` by the `Moved`-only call sequence `setDirection Down;
move; setDirection Left; move; setDirection Up; grow; move` (bounds 10x10)
has body `[(3,4),(4,4),(4,5),(3,5),(3,4)]`, a duplicate of the tail cell:
the final move lands on the current tail while growth is pending, and the
tail does not vacate. -/
theorem reachable_duplicate :
    Reachable ⟨[(3,4), (4,4), (4,5), (3,5), (3,4)], .Up, false⟩ ∧
      ¬ (Snake.mk [(3,4), (4,4), (4,5), (3,5), (3,4)] .Up false).body.Nodup := by
  constructor
  · have h0 : Reachable (Snake.new (4,4) 4 .Right) :=
      .base (4,4) 4 .Right (by decide) (by decide)
    have h1 : Reachable ((Snake.new (4,4) 4 .Right).setDirection .Down) :=
      .setDir _ _ h0
    rw [show (Snake.new (4,4) 4 .Right).setDirection .Down =
        ⟨[(1,4), (2,4), (3,4), (4,4)], .Down, false⟩ from by decide] at h1
    have h2 : Reachable (⟨[(2,4), (3,4), (4,4), (4,5)], .Down, false⟩ : Snake) :=
      .mv _ _ 10 10 (4,5) (4,4) (some (1,4)) h1 (by decide)
    have h3 := Reachable.setDir _ .Left h2
    rw [show (⟨[(2,4), (3,4), (4,4), (4,5)], .Down, false⟩ : Snake).setDirection
        .Left = ⟨[(2,4), (3,4), (4,4), (4,5)], .Left, false⟩ from by decide] at h3
    have h4 : Reachable (⟨[(3,4), (4,4), (4,5), (3,5)], .Left, false⟩ : Snake) :=
      .mv _ _ 10 10 (3,5) (4,5) (some (2,4)) h3 (by decide)
    have h5 := Reachable.setDir _ .Up h4
    rw [show (⟨[(3,4), (4,4), (4,5), (3,5)], .Left, false⟩ : Snake).setDirection
        .Up = ⟨[(3,4), (4,4), (4,5), (3,5)], .Up, false⟩ from by decide] at h5
    have h6 := Reachable.growStep _ h5
    exact .mv _ _ 10 10 (3,4) (3,5) none h6 (by decide)
  · decide

/-- C2 (amended). In every reachable state in which no move has landed the
new head on the current tail cell while growth was pending, the body has no
duplicate coordinates. -/
theorem reachable_safe_nodup (s : Snake) (h : ReachableSafe s) :
    s.body.Nodup := by
  induction h with
  | base pos L d h1 h2 => exact new_body_nodup pos L d (by omega)
  | setDir s d h ih => rw [setDirection_body]; exact ih
  | growStep s h ih => exact ih
  | mv s s' maxX maxY nh oh ot h hm hsafe ih =>
    obtain ⟨t, rest, hb, hoh, hnh, hmem, hdir, hcase⟩ :=
      moveStep_moved_inv s maxX maxY nh oh ot s' hm
    rw [hb] at ih
    rcases List.nodup_cons.mp ih with ⟨htmem, hrest⟩
    rcases hcase with ⟨hg, hbody', _, _⟩ | ⟨hg, hbody', _, _⟩
    · have hne : nh ≠ t := by
        intro hEq
        exact hsafe hg (by rw [hb, hEq]; rfl)
      rw [hbody', List.nodup_cons]
      refine ⟨?_, ?_⟩
      · simp only [List.mem_append, List.mem_singleton]
        rintro (h1 | h2)
        · exact htmem h1
        · exact hne h2.symm
      · rw [List.nodup_append]
        exact ⟨hrest, List.nodup_singleton nh, fun a ha ha' => by
          rw [List.mem_singleton] at ha'; subst ha'; exact hmem ha⟩
    · rw [hbody', List.nodup_append]
      exact ⟨hrest, List.nodup_singleton nh, fun a ha ha' => by
        rw [List.mem_singleton] at ha'; subst ha'; exact hmem ha⟩

/-- Witness for the amended C2 at a concrete reachable state: the freshly
created snake `new((4,4), 4, Right)` is safely reachable and duplicate-free. -/
theorem reachable_safe_nodup_witness :
    ReachableSafe (Snake.new (4,4) 4 .Right) ∧
      (Snake.new (4,4) 4 .Right).body.Nodup :=
  ⟨.base (4,4) 4 .Right (by decide) (by decide),
   reachable_safe_nodup _ (.base (4,4) 4 .Right (by decide) (by decide))⟩


/-! ### C7: shape of the freshly constructed snake body -/


/-- The relation between two consecutive body cells of a straight snake
facing `d`: the second cell lies one unit step further along `d` (the body
is listed tail first, so successive cells advance toward the head). -/
def unitAlong (d : Direction) (a b : Coords) : Prop :=
  match d with
  | .Up => a.1 = b.1 ∧ a.2 = b.2 + 1
  | .Down => a.1 = b.1 ∧ b.2 = a.2 + 1
  | .Left => a.2 = b.2 ∧ a.1 = b.1 + 1
  | .Right => a.2 = b.2 ∧ b.1 = a.1 + 1

instance (d : Direction) (a b : Coords) : Decidable (unitAlong d a b) :=
  match d with
  | .Up => inferInstanceAs (Decidable (a.1 = b.1 ∧ a.2 = b.2 + 1))
  | .Down => inferInstanceAs (Decidable (a.1 = b.1 ∧ b.2 = a.2 + 1))
  | .Left => inferInstanceAs (Decidable (a.2 = b.2 ∧ a.1 = b.1 + 1))
  | .Right => inferInstanceAs (Decidable (a.2 = b.2 ∧ b.1 = a.1 + 1))

/-- No `u16` wraparound occurs while building the trailing body in
`Snake::new(pos, L, d)`: all backward cells stay within the `u16` range. -/
def newNoWrap (pos : Coords) (L : Nat) (d : Direction) : Prop :=
  match d with
  | .Up => pos.2 + (L - 1) ≤ 65535
  | .Down => L - 1 ≤ pos.2
  | .Left => pos.1 + (L - 1) ≤ 65535
  | .Right => L - 1 ≤ pos.1

instance (pos : Coords) (L : Nat) (d : Direction) : Decidable (newNoWrap pos L d) :=
  match d with
  | .Up => inferInstanceAs (Decidable (pos.2 + (L - 1) ≤ 65535))
  | .Down => inferInstanceAs (Decidable (L - 1 ≤ pos.2))
  | .Left => inferInstanceAs (Decidable (pos.1 + (L - 1) ≤ 65535))
  | .Right => inferInstanceAs (Decidable (L - 1 ≤ pos.1))

/-- The cell at index `i` of the freshly built body (`i = 0` is the tail):
`pos - diff * (L - 1 - i)` reduced modulo 2^16. -/
theorem new_body_getElem? (pos : Coords) (L : Nat) (d : Direction) (i : Nat)
    (h : i < L) :
    (Snake.new pos L d).body[i]? =
      some (u16ofInt ((pos.1 : Int) - (dirDiff d).1 * ((L - 1 - i : Nat) : Int)),
        u16ofInt ((pos.2 : Int) - (dirDiff d).2 * ((L - 1 - i : Nat) : Int))) := by
  rw [List.getElem?_eq_getElem (by simp [Snake.new]; omega)]
  congr 1
  unfold Snake.new
  simp [List.getElem_reverse]

/-- Counterexample to C7 as stated: `new((0,0), 2, Right)` builds the body
`[(65535, 0), (0, 0)]` — the backward cell `0 - 1` wraps around the `u16`
range — whose two cells do not differ by one unit step along the x axis. -/
theorem new_straight_cex :
    ¬ ((Snake.new (0,0) 2 .Right).body.length = 2 ∧
       (Snake.new (0,0) 2 .Right).body.getLast? = some (0,0) ∧
       List.Chain' (unitAlong .Right) (Snake.new (0,0) 2 .Right).body) := by
  intro h
  obtain ⟨-, -, hchain⟩ := h
  have hb : (Snake.new (0,0) 2 .Right).body = [(65535, 0), (0, 0)] := by decide
  rw [hb] at hchain
  have h1 : unitAlong .Right (65535, 0) (0, 0) := (List.chain'_cons.mp hchain).1
  simp only [unitAlong] at h1
  omega

/-- C7 (amended). Provided the start position is a valid `u16` pair and the
trailing body does not wrap around the `u16` range (`newNoWrap`),
`new(pos, L, d)` with `L ≥ 1` builds exactly `L` cells, the head (last
element) is `pos`, and each consecutive pair of cells differs by exactly
one unit step along the axis of `d`, trailing backward from the head. -/
theorem new_straight_body (pos : Coords) (L : Nat) (d : Direction)
    (hL : 1 ≤ L) (hx : pos.1 ≤ 65535) (hy : pos.2 ≤ 65535)
    (hw : newNoWrap pos L d) :
    (Snake.new pos L d).body.length = L ∧
      (Snake.new pos L d).body.getLast? = some pos ∧
      List.Chain' (unitAlong d) (Snake.new pos L d).body := by
  have hlen : (Snake.new pos L d).body.length = L := by simp [Snake.new]
  refine ⟨hlen, ?_, ?_⟩
  · rw [List.getLast?_eq_getElem?, hlen, new_body_getElem? pos L d (L - 1) (by omega)]
    have h0 : L - 1 - (L - 1) = 0 := by omega
    rw [h0]
    obtain ⟨px, py⟩ := pos
    simp only [Option.some.injEq, Prod.mk.injEq]
    cases d <;>
      simp only [dirDiff, u16ofInt, Nat.cast_zero, mul_zero, sub_zero] <;>
      constructor <;> omega
  · rw [List.chain'_iff_get]
    intro i hi
    rw [hlen] at hi
    rw [List.get_eq_getElem, List.get_eq_getElem]
    have e1 := new_body_getElem? pos L d i (by omega)
    have e2 := new_body_getElem? pos L d (i + 1) (by omega)
    rw [List.getElem?_eq_getElem
      (show i < (Snake.new pos L d).body.length by rw [hlen]; omega)] at e1
    rw [List.getElem?_eq_getElem
      (show i + 1 < (Snake.new pos L d).body.length by rw [hlen]; omega)] at e2
    rw [Option.some.inj e1, Option.some.inj e2]
    cases d <;> simp only [newNoWrap] at hw <;>
      simp only [dirDiff, unitAlong, u16ofInt, neg_mul, one_mul, zero_mul,
        sub_zero, sub_neg_eq_add, true_and, and_true] <;>
      omega

/-- Witness for the amended C7: `new((4,4), 4, Right)` is in range, has
length 4, head `(4,4)` and consecutive unit steps along x. -/
theorem new_straight_body_witness :
    (Snake.new (4,4) 4 .Right).body.length = 4 ∧
      (Snake.new (4,4) 4 .Right).body.getLast? = some (4,4) ∧
      List.Chain' (unitAlong .Right) (Snake.new (4,4) 4 .Right).body :=
  new_straight_body (4,4) 4 .Right (by decide) (by decide) (by decide) (by decide)



/-! ### C9: apple spawning stays off the snake and inside the arena -/


/-- Membership in the precomputed `game_positions` list is exactly the
arena-interior predicate. -/
theorem gamePositions_mem (width height : Nat) (c : Coords) :
    c ∈ gamePositions width height ↔ interiorCell width height c := by
  obtain ⟨x, y⟩ := c
  unfold gamePositions interiorCell
  simp only [List.mem_flatMap, List.mem_map, List.mem_range'_1, Prod.mk.injEq]
  constructor
  · rintro ⟨y', hy', x', hx', rfl, rfl⟩
    omega
  · rintro ⟨h1, h2, h3, h4⟩
    exact ⟨y, by omega, x, by omega, rfl, rfl⟩

/-- C9. Apple spawning returns a cell in the arena interior that is not
occupied by the snake body, for every random draw `i`; it returns `none`
if and only if every interior cell is occupied by the body. -/
theorem spawn_apple_spec (width height : Nat) (body : List Coords) (i : Nat) :
    (∀ c, spawnApple width height body i = some c →
        interiorCell width height c ∧ c ∉ body) ∧
      (spawnApple width height body i = none ↔
        ∀ c, interiorCell width height c → c ∈ body) := by
  constructor
  · intro c hc
    simp only [spawnApple, chooseOracle] at hc
    split at hc
    · simp at hc
    · have hmem : c ∈ (gamePositions width height).filter
          (fun p => decide (¬ p ∈ body)) := by
        rw [← Option.some.inj hc]
        exact List.get_mem _ _ _
      rw [List.mem_filter] at hmem
      refine ⟨(gamePositions_mem width height c).mp hmem.1, ?_⟩
      simpa using hmem.2
  · simp only [spawnApple, chooseOracle]
    constructor
    · intro h c hcint
      split at h
      · rename_i hlen
        by_contra hcb
        have hc : c ∈ (gamePositions width height).filter
            (fun p => decide (¬ p ∈ body)) :=
          List.mem_filter.mpr ⟨(gamePositions_mem width height c).mpr hcint,
            by simpa using hcb⟩
        rw [List.length_eq_zero] at hlen
        rw [hlen] at hc
        simp at hc
      · simp at h
    · intro hall
      split
      · rfl
      · rename_i hlen
        exfalso
        obtain ⟨c, hc⟩ := List.exists_mem_of_length_pos (Nat.pos_of_ne_zero hlen)
        rw [List.mem_filter] at hc
        have := hall c ((gamePositions_mem width height c).mp hc.1)
        simp only [decide_not, Bool.not_eq_true', decide_eq_false_iff_not] at hc
        exact hc.2 this

/-- Witness for C9 at a concrete input: in a 5x5 terminal with an empty
body and draw 0, spawning returns the free interior cell (1,1). -/
theorem spawn_apple_spec_witness :
    interiorCell 5 5 (1, 1) ∧ ((1, 1) : Coords) ∉ ([] : List Coords) :=
  (spawn_apple_spec 5 5 [] 0).1 (1, 1) (by decide)



/-! ### C3: the overlay message round trip on the screen buffer -/


/-- `struct Message` from src/term.rs. -/
structure Message where
  width : Nat
  height : Nat
  top_left : Coords
deriving DecidableEq, Repr

/-- `struct TermManager` from src/term.rs together with a model of the
terminal device: `screen` is the `Vec<char>` mirror buffer (row-major,
index `width * y + x`) and `device` maps each cell to the character most
recently queued for it through crossterm. `flush` only drains the queue,
so queued writes are modelled as immediately visible on `device`. -/
structure TermState where
  width : Nat
  height : Nat
  screen : List Char
  current_msg : Option Message
  device : Coords → Char

/-- One `queue!(MoveTo(pos), Print(ch))` on the device model. -/
def writeDev (dev : Coords → Char) (pos : Coords) (ch : Char) : Coords → Char :=
  fun p => if p = pos then ch else dev p

/-- `TermManager::print_at`: queue the character on the device and record
it in the mirror buffer at index `width * y + x`. -/
def TermState.print_at (st : TermState) (pos : Coords) (ch : Char) : TermState :=
  { st with device := writeDev st.device pos ch,
            screen := st.screen.set (st.width * pos.2 + pos.1) ch }

/-- `TermManager::print_at_no_save`: queue the character on the device only,
leaving the mirror buffer untouched. -/
def TermState.print_at_no_save (st : TermState) (pos : Coords) (ch : Char) :
    TermState :=
  { st with device := writeDev st.device pos ch }

/-- `TermManager::has_message`. -/
def TermState.has_message (st : TermState) : Bool :=
  st.current_msg.isSome

/-- The restore loops of `TermManager::hide_message`: for every cell of the
`w` x `h` box at `tl`, re-read the stored character from the mirror buffer
and queue it on the device through the no-save path. The mirror read
`screen[width * y + x]` is total here via `getD` (in the source an
out-of-range box would panic; a box that fits is always in range). -/
def hideRestoreFold (w h : Nat) (tl : Coords) (st : TermState) : TermState :=
  (List.range h).foldl (fun s y_diff =>
    (List.range w).foldl (fun s x_diff =>
      s.print_at_no_save (u16add tl.1 x_diff, u16add tl.2 y_diff)
        (s.screen.getD (s.width * (u16add tl.2 y_diff) + (u16add tl.1 x_diff)) ' '))
      s) st

/-- `TermManager::hide_message`: no-op when no message is active; otherwise
take the recorded box (clearing `current_msg`) and restore its rectangle
from the mirror buffer. -/
def TermState.hide_message (st : TermState) : TermState :=
  match st.current_msg with
  | none => st
  | some msg =>
    hideRestoreFold msg.width msg.height msg.top_left
      { st with current_msg := none }

/-- The iterator chain `lines.iter().map(|x| x.len()).max()`. -/
def listMax? (l : List Nat) : Option Nat :=
  l.foldl (fun acc x =>
    match acc with
    | none => some x
    | some m => some (max m x)) none

/-- Rust `format!("{line: ^width$}")`: center `line` in `width` columns
with spaces, any extra space going to the right; a line at least `width`
long is returned unchanged. -/
def padCenter (line : List Char) (w : Nat) : List Char :=
  List.replicate ((w - line.length) / 2) ' ' ++ line ++
    List.replicate ((w - line.length) - (w - line.length) / 2) ' '

/-- The two blank padding rows of `show_message`: row `top_left.y` and row
`top_left.y + msg_height - 1`, each `msg_width` spaces wide, queued through
the no-save path. -/
def showBlankRows (msg_width : Nat) (top_left : Coords) (msg_height : Nat)
    (st : TermState) : TermState :=
  [top_left.2, u16sub (u16add top_left.2 msg_height) 1].foldl
    (fun s y => (List.range msg_width).foldl
      (fun s x_diff => s.print_at_no_save (u16add top_left.1 x_diff, y) ' ') s)
    st

/-- The message rows of `show_message`: line `i`, centered in `msg_width`
columns, is queued at row `top_left.y + i + 1` through the no-save path
(`enum` models `enumerate` and `char_indices`). -/
def showLineRows (lines : List (List Char)) (msg_width : Nat)
    (top_left : Coords) (st : TermState) : TermState :=
  lines.enum.foldl (fun s li =>
    (padCenter li.2 msg_width).enum.foldl (fun s ci =>
      s.print_at_no_save
        (u16add top_left.1 ci.1, u16add (u16add top_left.2 li.1) 1)
        ci.2) s) st

/-- `TermManager::show_message`: hide any active message first, compute the
box (`max line length + 2` by `line count + 2`) centered on the terminal,
queue the two blank rows and the centered lines through the no-save path,
record the box as the active message, flush. Returns `none` when `lines`
is empty (where `.max().unwrap()` panics). Message lines are `List Char`;
`len()` and the `char_indices` offsets agree with character counts for the
ASCII strings this game passes. -/
def TermState.show_message (st : TermState) (lines : List (List Char)) :
    Option TermState :=
  let st0 := if st.has_message then st.hide_message else st
  match listMax? (lines.map List.length) with
  | none => none
  | some maxLen =>
    let msg_height := lines.length + 2
    let msg_width := maxLen + 2
    let top_left := (u16sub (st0.width / 2) (msg_width / 2),
                     u16sub (st0.height / 2) (msg_height / 2))
    some { showLineRows lines msg_width top_left
             (showBlankRows msg_width top_left msg_height st0) with
           current_msg := some ⟨msg_width, msg_height, top_left⟩ }


/-- Reading the device model after a no-save print. -/
theorem print_at_no_save_device (st : TermState) (pos : Coords) (ch : Char)
    (p : Coords) :
    (st.print_at_no_save pos ch).device p = if p = pos then ch else st.device p :=
  rfl

/-- Fields other than the device are preserved by any fold whose step only
writes through the no-save path. -/
theorem foldl_no_save_fields {α : Type} (f : TermState → α → TermState)
    (hf : ∀ s a, (f s a).width = s.width ∧ (f s a).height = s.height ∧
      (f s a).screen = s.screen ∧ (f s a).current_msg = s.current_msg) :
    ∀ (l : List α) (s : TermState),
      (l.foldl f s).width = s.width ∧ (l.foldl f s).height = s.height ∧
        (l.foldl f s).screen = s.screen ∧
        (l.foldl f s).current_msg = s.current_msg
  | [], s => ⟨rfl, rfl, rfl, rfl⟩
  | a :: l, s => by
    have ih := foldl_no_save_fields f hf l (f s a)
    have h := hf s a
    simp only [List.foldl_cons]
    exact ⟨ih.1.trans h.1, ih.2.1.trans h.2.1, ih.2.2.1.trans h.2.2.1,
      ih.2.2.2.trans h.2.2.2⟩

theorem hideRestoreRow_fields (w : Nat) (tlx yv : Nat) (s : TermState) :
    (((List.range w).foldl (fun s x_diff =>
        s.print_at_no_save (u16add tlx x_diff, yv)
          (s.screen.getD (s.width * yv + (u16add tlx x_diff)) ' ')) s)).width
        = s.width ∧
      (((List.range w).foldl (fun s x_diff =>
        s.print_at_no_save (u16add tlx x_diff, yv)
          (s.screen.getD (s.width * yv + (u16add tlx x_diff)) ' ')) s)).height
        = s.height ∧
      (((List.range w).foldl (fun s x_diff =>
        s.print_at_no_save (u16add tlx x_diff, yv)
          (s.screen.getD (s.width * yv + (u16add tlx x_diff)) ' ')) s)).screen
        = s.screen ∧
      (((List.range w).foldl (fun s x_diff =>
        s.print_at_no_save (u16add tlx x_diff, yv)
          (s.screen.getD (s.width * yv + (u16add tlx x_diff)) ' ')) s)).current_msg
        = s.current_msg :=
  foldl_no_save_fields
    (fun s x_diff => s.print_at_no_save (u16add tlx x_diff, yv)
      (s.screen.getD (s.width * yv + (u16add tlx x_diff)) ' '))
    (fun _ _ => ⟨rfl, rfl, rfl, rfl⟩) (List.range w) s

/-- Device contents after one restore row: every cell of the row carries
the mirror character recorded for it, all other cells are untouched. -/
theorem hideRestoreRow_device (w : Nat) (tlx yv : Nat) (s : TermState)
    (p : Coords) :
    (((List.range w).foldl (fun s x_diff =>
        s.print_at_no_save (u16add tlx x_diff, yv)
          (s.screen.getD (s.width * yv + (u16add tlx x_diff)) ' ')) s)).device p
      = if ∃ xd ∈ List.range w, p = ((u16add tlx xd : Nat), yv)
        then s.screen.getD (s.width * p.2 + p.1) ' ' else s.device p := by
  induction w with
  | zero => simp
  | succ w ih =>
    have hcond_iff : (∃ xd ∈ List.range (w+1), p = ((u16add tlx xd : Nat), yv)) ↔
        ((∃ xd ∈ List.range w, p = ((u16add tlx xd : Nat), yv)) ∨
          p = ((u16add tlx w : Nat), yv)) := by
      simp only [List.mem_range]
      constructor
      · rintro ⟨xd, hxd, hpe⟩
        rcases Nat.lt_succ_iff_lt_or_eq.mp hxd with h | h
        · exact Or.inl ⟨xd, h, hpe⟩
        · exact Or.inr (h ▸ hpe)
      · rintro (⟨xd, hxd, hpe⟩ | hpe)
        · exact ⟨xd, by omega, hpe⟩
        · exact ⟨w, by omega, hpe⟩
    have hfields := hideRestoreRow_fields w tlx yv s
    conv_lhs => rw [List.range_succ, List.foldl_append, List.foldl_cons,
      List.foldl_nil]
    rw [print_at_no_save_device]
    by_cases hp : p = ((u16add tlx w : Nat), yv)
    · rw [if_pos hp, if_pos (hcond_iff.mpr (Or.inr hp)), hfields.2.2.1,
        hfields.1, hp]
    · rw [if_neg hp, ih]
      by_cases hc : ∃ xd ∈ List.range w, p = ((u16add tlx xd : Nat), yv)
      · rw [if_pos hc, if_pos (hcond_iff.mpr (Or.inl hc))]
      · rw [if_neg hc, if_neg (fun hcc => (hcond_iff.mp hcc).elim hc hp)]
theorem hideRestoreFold_fields (w h : Nat) (tl : Coords) (s : TermState) :
    (hideRestoreFold w h tl s).width = s.width ∧
      (hideRestoreFold w h tl s).height = s.height ∧
      (hideRestoreFold w h tl s).screen = s.screen ∧
      (hideRestoreFold w h tl s).current_msg = s.current_msg :=
  foldl_no_save_fields
    (fun s y_diff => (List.range w).foldl (fun s x_diff =>
      s.print_at_no_save (u16add tl.1 x_diff, u16add tl.2 y_diff)
        (s.screen.getD (s.width * (u16add tl.2 y_diff) + (u16add tl.1 x_diff)) ' '))
      s)
    (fun s yd => hideRestoreRow_fields w tl.1 (u16add tl.2 yd) s)
    (List.range h) s

/-- Device contents after the full restore: every cell of the recorded box
carries its mirror character, all other cells are untouched. -/
theorem hideRestoreFold_device (w h : Nat) (tl : Coords) (s : TermState)
    (p : Coords) :
    (hideRestoreFold w h tl s).device p
      = if ∃ yd ∈ List.range h, ∃ xd ∈ List.range w,
            p = ((u16add tl.1 xd : Nat), (u16add tl.2 yd : Nat))
        then s.screen.getD (s.width * p.2 + p.1) ' ' else s.device p := by
  induction h with
  | zero => simp [hideRestoreFold]
  | succ h ih =>
    have hcond_iff : (∃ yd ∈ List.range (h+1), ∃ xd ∈ List.range w,
          p = ((u16add tl.1 xd : Nat), (u16add tl.2 yd : Nat))) ↔
        ((∃ yd ∈ List.range h, ∃ xd ∈ List.range w,
            p = ((u16add tl.1 xd : Nat), (u16add tl.2 yd : Nat))) ∨
          (∃ xd ∈ List.range w,
            p = ((u16add tl.1 xd : Nat), (u16add tl.2 h : Nat)))) := by
      simp only [List.mem_range]
      constructor
      · rintro ⟨yd, hyd, hrest⟩
        rcases Nat.lt_succ_iff_lt_or_eq.mp hyd with hlt | heq
        · exact Or.inl ⟨yd, hlt, hrest⟩
        · exact Or.inr (heq ▸ hrest)
      · rintro (⟨yd, hyd, hrest⟩ | hrest)
        · exact ⟨yd, by omega, hrest⟩
        · exact ⟨h, by omega, hrest⟩
    have hfieldsF := hideRestoreFold_fields w h tl s
    unfold hideRestoreFold at ih ⊢
    conv_lhs => rw [List.range_succ, List.foldl_append, List.foldl_cons,
      List.foldl_nil]
    rw [hideRestoreRow_device]
    by_cases hr : ∃ xd ∈ List.range w,
        p = ((u16add tl.1 xd : Nat), (u16add tl.2 h : Nat))
    · rw [if_pos hr, if_pos (hcond_iff.mpr (Or.inr hr))]
      unfold hideRestoreFold at hfieldsF
      rw [hfieldsF.2.2.1, hfieldsF.1]
    · rw [if_neg hr, ih]
      by_cases hc : ∃ yd ∈ List.range h, ∃ xd ∈ List.range w,
          p = ((u16add tl.1 xd : Nat), (u16add tl.2 yd : Nat))
      · rw [if_pos hc, if_pos (hcond_iff.mpr (Or.inl hc))]
      · rw [if_neg hc, if_neg (fun hcc => (hcond_iff.mp hcc).elim hc hr)]

/-- Full characterization of `hide_message` on a state with an active
message: mirror, dimensions untouched; the record is cleared; every box
cell of the device is restored from the mirror, everything else untouched. -/
theorem hide_message_spec (st : TermState) (msg : Message)
    (hmsg : st.current_msg = some msg) :
    st.hide_message.width = st.width ∧ st.hide_message.height = st.height ∧
      st.hide_message.screen = st.screen ∧
      st.hide_message.current_msg = none ∧
      ∀ p : Coords, st.hide_message.device p =
        if ∃ yd ∈ List.range msg.height, ∃ xd ∈ List.range msg.width,
            p = ((u16add msg.top_left.1 xd : Nat), (u16add msg.top_left.2 yd : Nat))
        then st.screen.getD (st.width * p.2 + p.1) ' ' else st.device p := by
  have hred : st.hide_message = hideRestoreFold msg.width msg.height msg.top_left
      { st with current_msg := none } := by
    unfold TermState.hide_message
    rw [hmsg]
  have hfields := hideRestoreFold_fields msg.width msg.height msg.top_left
    { st with current_msg := none }
  rw [hred]
  refine ⟨hfields.1, hfields.2.1, hfields.2.2.1, hfields.2.2.2, ?_⟩
  intro p
  rw [hideRestoreFold_device]
theorem showBlankRows_fields (w : Nat) (tl : Coords) (h : Nat) (s : TermState) :
    (showBlankRows w tl h s).width = s.width ∧
      (showBlankRows w tl h s).height = s.height ∧
      (showBlankRows w tl h s).screen = s.screen ∧
      (showBlankRows w tl h s).current_msg = s.current_msg :=
  foldl_no_save_fields
    (fun s y => (List.range w).foldl
      (fun s x_diff => s.print_at_no_save (u16add tl.1 x_diff, y) ' ') s)
    (fun s y => foldl_no_save_fields
      (fun s x_diff => s.print_at_no_save (u16add tl.1 x_diff, y) ' ')
      (fun _ _ => ⟨rfl, rfl, rfl, rfl⟩) (List.range w) s)
    [tl.2, u16sub (u16add tl.2 h) 1] s

theorem showLineRows_fields (lines : List (List Char)) (w : Nat) (tl : Coords)
    (s : TermState) :
    (showLineRows lines w tl s).width = s.width ∧
      (showLineRows lines w tl s).height = s.height ∧
      (showLineRows lines w tl s).screen = s.screen ∧
      (showLineRows lines w tl s).current_msg = s.current_msg := by
  unfold showLineRows
  exact foldl_no_save_fields _
    (fun s li => foldl_no_save_fields
      (fun s ci =>
        s.print_at_no_save (u16add tl.1 ci.1, u16add (u16add tl.2 li.1) 1) ci.2)
      (fun _ _ => ⟨rfl, rfl, rfl, rfl⟩) (padCenter li.2 w).enum s)
    lines.enum s

/-- Characterization of a successful `show_message` on a state with no
active overlay: the mirror buffer and the dimensions are untouched, and
the active-message record holds the computed centered box. -/
theorem show_message_spec (st : TermState) (lines : List (List Char))
    (maxLen : Nat) (hmsg : st.current_msg = none)
    (hmax : listMax? (lines.map List.length) = some maxLen) :
    ∃ st1, st.show_message lines = some st1 ∧ st1.width = st.width ∧
      st1.height = st.height ∧ st1.screen = st.screen ∧
      st1.current_msg = some ⟨maxLen + 2, lines.length + 2,
        (u16sub (st.width / 2) ((maxLen + 2) / 2),
         u16sub (st.height / 2) ((lines.length + 2) / 2))⟩ := by
  have hhm : st.has_message = false := by
    unfold TermState.has_message
    rw [hmsg]
    rfl
  simp only [TermState.show_message, hhm, Bool.false_eq_true, if_false, hmax]
  refine ⟨_, rfl, ?_, ?_, ?_, rfl⟩
  · exact (showLineRows_fields _ _ _ _).1.trans (showBlankRows_fields _ _ _ _).1
  · exact (showLineRows_fields _ _ _ _).2.1.trans (showBlankRows_fields _ _ _ _).2.1
  · exact (showLineRows_fields _ _ _ _).2.2.1.trans (showBlankRows_fields _ _ _ _).2.2.1
/-- C3. For every screen-buffer state with no active overlay whose device
agrees with the mirror buffer on the computed message rectangle (the
invariant the mirror exists to maintain), and every non-empty list of
message lines whose computed box fits on the terminal, `show_message`
followed immediately by `hide_message` restores the device content of every
cell of the message rectangle to its value before `show_message`, and
neither operation writes anything into the mirror `cells` buffer. -/
theorem show_hide_roundtrip (st : TermState) (lines : List (List Char))
    (maxLen : Nat) (hmsg : st.current_msg = none)
    (hmax : listMax? (lines.map List.length) = some maxLen)
    (hfw : maxLen + 2 ≤ st.width) (hfh : lines.length + 2 ≤ st.height)
    (hw16 : st.width ≤ 65535) (hh16 : st.height ≤ 65535)
    (hmirror : ∀ p : Coords,
      st.width / 2 - (maxLen + 2) / 2 ≤ p.1 →
      p.1 < st.width / 2 - (maxLen + 2) / 2 + (maxLen + 2) →
      st.height / 2 - (lines.length + 2) / 2 ≤ p.2 →
      p.2 < st.height / 2 - (lines.length + 2) / 2 + (lines.length + 2) →
      st.device p = st.screen.getD (st.width * p.2 + p.1) ' ') :
    ∃ st1, st.show_message lines = some st1 ∧
      st1.screen = st.screen ∧
      st1.hide_message.screen = st.screen ∧
      ∀ p : Coords,
        st.width / 2 - (maxLen + 2) / 2 ≤ p.1 →
        p.1 < st.width / 2 - (maxLen + 2) / 2 + (maxLen + 2) →
        st.height / 2 - (lines.length + 2) / 2 ≤ p.2 →
        p.2 < st.height / 2 - (lines.length + 2) / 2 + (lines.length + 2) →
        st1.hide_message.device p = st.device p := by
  obtain ⟨st1, hshow, h1w, h1h, h1s, h1m⟩ :=
    show_message_spec st lines maxLen hmsg hmax
  have hhide := hide_message_spec st1 _ h1m
  have htlx : u16sub (st.width / 2) ((maxLen + 2) / 2)
      = st.width / 2 - (maxLen + 2) / 2 := by
    unfold u16sub; omega
  have htly : u16sub (st.height / 2) ((lines.length + 2) / 2)
      = st.height / 2 - (lines.length + 2) / 2 := by
    unfold u16sub; omega
  refine ⟨st1, hshow, h1s, hhide.2.2.1.trans h1s, ?_⟩
  intro p hp1 hp2 hp3 hp4
  have hdev := hhide.2.2.2.2 p
  have e1 : (Message.mk (maxLen + 2) (lines.length + 2)
      (u16sub (st.width / 2) ((maxLen + 2) / 2),
       u16sub (st.height / 2) ((lines.length + 2) / 2))).height
      = lines.length + 2 := rfl
  have e2 : (Message.mk (maxLen + 2) (lines.length + 2)
      (u16sub (st.width / 2) ((maxLen + 2) / 2),
       u16sub (st.height / 2) ((lines.length + 2) / 2))).width
      = maxLen + 2 := rfl
  have e3 : (Message.mk (maxLen + 2) (lines.length + 2)
      (u16sub (st.width / 2) ((maxLen + 2) / 2),
       u16sub (st.height / 2) ((lines.length + 2) / 2))).top_left.1
      = u16sub (st.width / 2) ((maxLen + 2) / 2) := rfl
  have e4 : (Message.mk (maxLen + 2) (lines.length + 2)
      (u16sub (st.width / 2) ((maxLen + 2) / 2),
       u16sub (st.height / 2) ((lines.length + 2) / 2))).top_left.2
      = u16sub (st.height / 2) ((lines.length + 2) / 2) := rfl
  rw [e1, e2, e3, e4, htlx, htly] at hdev
  rw [hdev, if_pos ?_]
  · rw [h1s, h1w]
    exact (hmirror p hp1 hp2 hp3 hp4).symm
  · refine ⟨p.2 - (st.height / 2 - (lines.length + 2) / 2), ?_,
      p.1 - (st.width / 2 - (maxLen + 2) / 2), ?_, ?_⟩
    · simp only [List.mem_range]; omega
    · simp only [List.mem_range]; omega
    · obtain ⟨px, py⟩ := p
      simp only [Prod.mk.injEq]
      unfold u16add
      simp only at hp1 hp2 hp3 hp4
      constructor <;> omega

/-- A concrete post-clear terminal state: 10x10, all-blank mirror and
device, no active overlay. -/
def witState : TermState :=
  ⟨10, 10, List.replicate 100 ' ', none, fun _ => ' '⟩

theorem getD_replicate_blank (n i : Nat) :
    (List.replicate n (' ' : Char)).getD i ' ' = ' ' := by
  induction n generalizing i with
  | zero => rfl
  | succ n ih =>
    cases i with
    | zero => rfl
    | succ i => exact ih i

/-- Witness for C3: showing the one-line message `hi` on a blank 10x10
terminal and hiding it immediately restores the device on the 4x3 box. -/
theorem show_hide_roundtrip_witness :
    ∃ st1, witState.show_message [['h', 'i']] = some st1 ∧
      st1.screen = witState.screen ∧
      st1.hide_message.screen = witState.screen ∧
      ∀ p : Coords,
        witState.width / 2 - (2 + 2) / 2 ≤ p.1 →
        p.1 < witState.width / 2 - (2 + 2) / 2 + (2 + 2) →
        witState.height / 2 - (1 + 2) / 2 ≤ p.2 →
        p.2 < witState.height / 2 - (1 + 2) / 2 + (1 + 2) →
        st1.hide_message.device p = witState.device p :=
  show_hide_roundtrip witState [['h', 'i']] 2 rfl rfl (by decide) (by decide)
    (by decide) (by decide)
    (fun p _ _ _ _ => (getD_replicate_blank 100 _).symm)
end SnakeVerif
